import Mathlib

/-!
Verification of `pare`, a CLI client for the Condenser URL-shortening service.

Shallow embedding of `pare.go`. The kingpin argument parser, the HTTP
transport and the Go `time` package are external collaborators: parsed flag
and argument values, the server's response (status code plus body), and the
time-formatting function are parameters of the model. Everything else —
config resolution (`serverDetails`), request construction (`makeRequest`),
the request/response round trip (`doRequest`), and the three command
handlers (`shorten`, `rm`, `meta`) — is translated from the source.

JSON bodies are modelled as an abstract syntax tree (`Jval`); `Jval.render`
produces the compact textual encoding that `encoding/json` emits for the
values this program serializes.
-/

namespace Pare

set_option linter.unnecessarySeqFocus false

/-- JSON value AST. The program only ever (de)serializes strings, numbers,
null and objects, so arrays are not needed. -/
inductive Jval : Type where
  | str (s : String)
  | num (n : Int)
  | null
  | obj (fields : List (String × Jval))
deriving Repr

/-- A JSON object body: an ordered list of key/value pairs, as
`encoding/json` emits struct fields in declaration order. -/
abbrev Jobj := List (String × Jval)

/-- String escaping as done by `encoding/json` for the characters this
program can emit (quote and backslash; the HTML and control-character
escapes are never reachable from the values the client builds). -/
def jsonEscapeChar (c : Char) : List Char :=
  if c = '"' then ['\\', '"']
  else if c = '\\' then ['\\', '\\']
  else [c]

/-- Escape every character of a string for JSON output. -/
def jsonEscape (s : String) : String :=
  String.mk ((s.data.map jsonEscapeChar).flatten)

mutual

/-- Compact rendering of a JSON value, matching `json.Marshal` output. -/
def Jval.render : Jval → String
  | .str s => "\"" ++ jsonEscape s ++ "\""
  | .num n => toString n
  | .null => "null"
  | .obj fields => "\x7b" ++ Jval.renderFields fields ++ "\x7d"

/-- Rendering of the comma-separated field list of a JSON object. -/
def Jval.renderFields : List (String × Jval) → String
  | [] => ""
  | [(k, v)] => "\"" ++ jsonEscape k ++ "\":" ++ v.render
  | (k, v) :: rest =>
      "\"" ++ jsonEscape k ++ "\":" ++ v.render ++ "," ++ Jval.renderFields rest

end

/-- Field lookup in a JSON object. `encoding/json` lets a later duplicate
key overwrite an earlier one, hence the search from the right. -/
def lookupField (o : Jobj) (k : String) : Option Jval :=
  (o.reverse.find? (fun kv => kv.1 == k)).map (fun kv => kv.2)

/-- Go semantics of unmarshalling a JSON object field into a `string`
struct field: a missing key or a JSON null leaves the zero value `""`, a
JSON string is taken as is, any other type is an unmarshalling error. -/
def getStrField (o : Jobj) (k : String) : Option String :=
  match lookupField o k with
  | none => some ""
  | some .null => some ""
  | some (.str s) => some s
  | some _ => none

-- Data model (struct declarations of pare.go)

/-- `Config` from pare.go: the on-disk/effective configuration. `APIKey`
is a string newtype in Go; a plain string here. -/
structure Config : Type where
  APIKey : String
  Server : String
deriving Repr, DecidableEq

/-- `ShortenRequest` from pare.go: `url`, plus `code` and `meta` with
`omitempty`. -/
structure ShortenRequest : Type where
  Url : String
  Shortcode : String
  Meta : String
deriving Repr, DecidableEq

/-- `ShortenResponse` from pare.go. -/
structure ShortenResponse : Type where
  ShortUrl : String
deriving Repr, DecidableEq

/-- `DeleteRequest` from pare.go. -/
structure DeleteRequest : Type where
  Code : String
deriving Repr, DecidableEq

/-- `DeleteResponse` from pare.go. -/
structure DeleteResponse : Type where
  Code : String
  Status : String
deriving Repr, DecidableEq

/-- `LinkMetadata` from pare.go. Go's `time.Time` is kept as its RFC 3339
wire string; parsing/formatting of times is the `time` package's business
and is abstracted (see `runMeta`'s `fmtTime` parameter). -/
structure LinkMetadata : Type where
  Owner : String
  Time : String
  UserMeta : String
deriving Repr, DecidableEq

/-- `MetaResponse` from pare.go. -/
structure MetaResponse : Type where
  FullUrl : String
  Meta : LinkMetadata
deriving Repr, DecidableEq

-- Marshalling (struct → JSON object), following the json tags

/-- Endpoint constant `/api/shorten`. -/
def ShortenEndpoint : String := "/api/shorten"

/-- Endpoint constant `/api/delete`. -/
def DeleteEndpoint : String := "/api/delete"

/-- Endpoint constant `/api/meta/` (the code is appended). -/
def MetaEndpoint : String := "/api/meta/"

/-- `json.Marshal` of a `ShortenRequest`: fields in declaration order;
`code` and `meta` carry `omitempty`, so an empty string field is omitted
from the object entirely. -/
def ShortenRequest.marshal (r : ShortenRequest) : Jobj :=
  [("url", Jval.str r.Url)]
    ++ (if r.Shortcode = "" then [] else [("code", Jval.str r.Shortcode)])
    ++ (if r.Meta = "" then [] else [("meta", Jval.str r.Meta)])

/-- `json.Marshal` of a `DeleteRequest`. -/
def DeleteRequest.marshal (r : DeleteRequest) : Jobj :=
  [("code", Jval.str r.Code)]

/-- `json.Marshal` of `Empty{}`: the empty object. -/
def Empty.marshal : Jobj := []

-- Unmarshalling (JSON object → struct), Go `json.Unmarshal` semantics

/-- Unmarshal a `ShortenResponse` (string field `short_url`). -/
def decodeShortenResponse (o : Jobj) : Option ShortenResponse := do
  let su ← getStrField o "short_url"
  pure ⟨su⟩

/-- Unmarshal a `DeleteResponse` (string fields `code` and `status`). -/
def decodeDeleteResponse (o : Jobj) : Option DeleteResponse := do
  let c ← getStrField o "code"
  let s ← getStrField o "status"
  pure ⟨c, s⟩

/-- Unmarshal a `ShortenRequest` back from JSON. The struct's fields are
plain Go strings, so a missing `code`/`meta` key yields the zero value
`""`; `omitempty` plays no role when decoding. -/
def decodeShortenRequest (o : Jobj) : Option ShortenRequest := do
  let u ← getStrField o "url"
  let c ← getStrField o "code"
  let m ← getStrField o "meta"
  pure ⟨u, c, m⟩

/-- Unmarshal a `LinkMetadata` from the fields of the nested `meta`
object. The `time` field must be a JSON string (Go would parse it as RFC
3339; the text is kept as is, see `LinkMetadata`). -/
def decodeLinkMetadata (o : Jobj) : Option LinkMetadata := do
  let ow ← getStrField o "owner"
  let t ← getStrField o "time"
  let um ← getStrField o "user_meta"
  pure ⟨ow, t, um⟩

/-- Unmarshal a `MetaResponse`: string field `full_url` and nested object
field `meta` (missing or null leaves the zero `LinkMetadata`). -/
def decodeMetaResponse (o : Jobj) : Option MetaResponse := do
  let fu ← getStrField o "full_url"
  let m ←
    match lookupField o "meta" with
    | none => some (⟨"", "", ""⟩ : LinkMetadata)
    | some Jval.null => some (⟨"", "", ""⟩ : LinkMetadata)
    | some (Jval.obj fs) => decodeLinkMetadata fs
    | some _ => none
  pure ⟨fu, m⟩

-- Execution model

/-- The global kingpin flags, as they arrive in the handlers. `serverFlag`
is kingpin's `URL()` value: `none` when the flag was not given, otherwise
`some` of the parsed URL's string rendering (pare.go tests `!= nil`).
`apiKeyFlag` is a plain string flag defaulting to `""`. -/
structure Flags : Type where
  debugFlag : Bool
  serverFlag : Option String
  apiKeyFlag : String
deriving Repr, DecidableEq

/-- State of `<home>/.pare.json` as `serverDetails` observes it: absent,
present but not valid JSON for `Config`, or present and parsed. -/
inductive ConfigFile : Type where
  | missing
  | invalid
  | parsed (c : Config)
deriving Repr, DecidableEq

/-- A debug line: `debug` prints to stderr only when `--debug` is set. -/
def dbgIf (fl : Flags) (line : String) : List String :=
  if fl.debugFlag then [line] else []

/-- `%+v` rendering of a `Config` for the `config:` debug line. -/
def Config.render (c : Config) : String :=
  "\x7bAPIKey:" ++ c.APIKey ++ " Server:" ++ c.Server ++ "\x7d"

/-- `serverDetails` from pare.go: resolve the effective config from the
on-disk file and the CLI flag overrides. Returns the config together with
the debug lines it printed, or the fatal-error message when the file
exists but does not parse (`kingpin.FatalIfError` exits with code 1).
Resolution of the home directory is assumed to succeed (its failure is an
OS-level condition outside the model). -/
def serverDetails (fl : Flags) (file : ConfigFile) :
    Except String (Config × List String) :=
  match file with
  | ConfigFile.invalid => Except.error "error parsing ~/.pare.json"
  | ConfigFile.missing =>
      let retUrl := match fl.serverFlag with
        | some s => s
        | none => ""
      let apikey := if fl.apiKeyFlag != "" then fl.apiKeyFlag else ""
      Except.ok (⟨apikey, retUrl⟩, dbgIf fl "~/.pare.json doesn't exist; ignoring.")
  | ConfigFile.parsed c =>
      let retUrl := match fl.serverFlag with
        | some s => s
        | none => c.Server
      let apikey := if fl.apiKeyFlag != "" then fl.apiKeyFlag else c.APIKey
      Except.ok (⟨apikey, retUrl⟩, [])

/-- The effective config `serverDetails` resolves, when it does not abort. -/
def resolvedConfig (fl : Flags) (file : ConfigFile) : Option Config :=
  match serverDetails fl file with
  | Except.ok (c, _) => some c
  | Except.error _ => none

/-- The debug lines `serverDetails` prints, when it does not abort. -/
def resolvedDbg (fl : Flags) (file : ConfigFile) : Option (List String) :=
  match serverDetails fl file with
  | Except.ok (_, d) => some d
  | Except.error _ => none

/-- An `http.Request` as `makeRequest` constructs it: method, full URL,
headers, serialized body, and `Close = true`. -/
structure HttpRequest : Type where
  method : String
  url : String
  headers : List (String × List String)
  body : String
  close : Bool
deriving Repr, DecidableEq

/-- `makeRequest` from pare.go. `http.NewRequest` is assumed to accept the
concatenated URL (its failure path calls the same fatal helper and is not
reachable in any claim). -/
def makeRequest (conf : Config) (method : String) (endpoint : String)
    (body : String) : HttpRequest :=
  { method := method
    url := conf.Server ++ endpoint
    headers :=
      [("Accept", ["application/json"]),
       ("Content-Type", ["application/json"]),
       ("X-API-Key", [conf.APIKey]),
       ("User-Agent", ["Pare (Go net/http)"])]
    body := body
    close := true }

/-- Outcome of `doRequest`, as the caller observes it: a fatal abort
(message printed to stderr, exit code 1), a non-200 status returned with
the response body untouched, or a 200 with the body deserialized into the
caller's struct. Each outcome carries the debug lines printed so far. -/
inductive DoOutcome (α : Type) : Type where
  | fatal (msg : String) (dbg : List String)
  | errStatus (status : Nat) (req : HttpRequest) (dbg : List String)
  | success (a : α) (req : HttpRequest) (dbg : List String)
deriving Repr, DecidableEq

/-- The raw response body: `some o` when the bytes parse as the JSON value
`o`, `none` when they are not valid JSON. -/
abbrev RawBody := Option Jobj

/-- `doRequest` from pare.go, parameterized by the typed deserializer for
the caller's response struct (Go's `json.Unmarshal` into `response
interface{}`) and by the server's answer `(respStatus, respRaw)`. The
transport itself is assumed to deliver an answer (a network-level failure
is fatal in the source and outside every claim). When the status is not
200 the function returns before touching the body; on 200 it reads and
deserializes the body, aborting on a parse failure. -/
def doRequest {α : Type} (decode : Jobj → Option α) (fl : Flags)
    (file : ConfigFile) (method : String) (endpoint : String) (body : Jobj)
    (respStatus : Nat) (respRaw : RawBody) : DoOutcome α :=
  match serverDetails fl file with
  | Except.error msg => DoOutcome.fatal msg []
  | Except.ok (config, dbg0) =>
      let txBody := Jval.render (Jval.obj body)
      let req := makeRequest config method endpoint txBody
      let dbg := dbg0 ++ dbgIf fl ("config: " ++ config.render)
        ++ dbgIf fl ("txBody: " ++ txBody)
        ++ dbgIf fl ("req: " ++ req.method ++ " " ++ req.url)
      if respStatus ≠ 200 then
        DoOutcome.errStatus respStatus req dbg
      else
        match respRaw with
        | none => DoOutcome.fatal "error parsing response" dbg
        | some o =>
            let dbg := dbg ++ dbgIf fl ("rxBody: " ++ Jval.render (Jval.obj o))
            match decode o with
            | none => DoOutcome.fatal "error parsing response" dbg
            | some a => DoOutcome.success a req dbg

/-- Observable result of one CLI invocation: stdout lines, stderr lines,
and the process exit code (the argument of `os.Exit`; falling off `main`
is exit 0, `kingpin.Fatalf`-family helpers exit 1). -/
structure RunResult : Type where
  stdout : List String
  stderr : List String
  exit : Int
deriving Repr, DecidableEq

-- Command handlers

/-- Arguments of the `shorten` command after kingpin parsing:
`shortenUrlArg` is the parsed URL's string rendering, `shortcodeArg` and
`metaArg` default to `""` when the flags are not given. -/
structure ShortenCmdArgs : Type where
  shortenUrlArg : String
  shortcodeArg : String
  metaArg : String
deriving Repr, DecidableEq

/-- Arguments of the `delete` command after kingpin parsing. -/
structure RmCmdArgs : Type where
  rmShortcodeArg : String
  failNoexistArg : Bool
deriving Repr, DecidableEq

/-- Arguments of the `meta` command after kingpin parsing. -/
structure MetaCmdArgs : Type where
  metaCodeArg : String
  metaJsonOut : Bool
deriving Repr, DecidableEq

/-- Model of `strings.ToUpper` on the ASCII fragment this client's codes
use (Go also folds non-ASCII letters; no claim evaluates one). -/
def goToUpper (s : String) : String :=
  String.mk (s.data.map Char.toUpper)

/-- The fatal diagnostic `shorten` prints for an unexpected status. -/
def unexpectedShortenMsg (code : Nat) : String :=
  "unexpected response: unexpected response code: " ++ toString code

/-- The fatal diagnostic `rm` and `meta` print for an unexpected status. -/
def unexpectedCodeMsg (code : Nat) : String :=
  "unexpected response code: " ++ toString code

/-- Tail of `shorten` from pare.go: branch on `doRequest`'s outcome. A 409
prints "conflict" to stderr (`errPrintf`) and calls `os.Exit(-1)`; any
other non-200 status is fatal (exit 1); on 200 the short URL is printed to
stdout and `main` falls through with exit 0. -/
def shortenFinish (o : DoOutcome ShortenResponse) : RunResult :=
  match o with
  | DoOutcome.fatal msg dbg => ⟨[], dbg ++ [msg], 1⟩
  | DoOutcome.errStatus status _ dbg =>
      if status = 409 then ⟨[], dbg ++ ["conflict"], -1⟩
      else ⟨[], dbg ++ [unexpectedShortenMsg status], 1⟩
  | DoOutcome.success resp _ dbg => ⟨[resp.ShortUrl], dbg, 0⟩

/-- `shorten` from pare.go (including `main`'s dispatch debug line):
build the `ShortenRequest` from the flag values, POST it to
`/api/shorten`, and map the outcome to terminal output and exit code. -/
def runShorten (fl : Flags) (a : ShortenCmdArgs) (file : ConfigFile)
    (respStatus : Nat) (respRaw : RawBody) : RunResult :=
  let bodyStruct : ShortenRequest := ⟨a.shortenUrlArg, a.shortcodeArg, a.metaArg⟩
  let r := shortenFinish (doRequest decodeShortenResponse fl file "POST"
    ShortenEndpoint bodyStruct.marshal respStatus respRaw)
  ⟨r.stdout, dbgIf fl ("shorten: " ++ a.shortenUrlArg) ++ r.stderr, r.exit⟩

/-- Tail of `rm` from pare.go: any non-200 status is fatal; on 200 print
`code/status`, then exit 1 when `--fail-no-exist` is set and the status is
`"noexist"`, else fall through with exit 0. -/
def rmFinish (failNoexist : Bool) (o : DoOutcome DeleteResponse) : RunResult :=
  match o with
  | DoOutcome.fatal msg dbg => ⟨[], dbg ++ [msg], 1⟩
  | DoOutcome.errStatus status _ dbg => ⟨[], dbg ++ [unexpectedCodeMsg status], 1⟩
  | DoOutcome.success resp _ dbg =>
      ⟨[resp.Code ++ "/" ++ resp.Status], dbg,
        if failNoexist && resp.Status == "noexist" then 1 else 0⟩

/-- `rm` from pare.go (including `main`'s dispatch debug line). -/
def runRm (fl : Flags) (a : RmCmdArgs) (file : ConfigFile)
    (respStatus : Nat) (respRaw : RawBody) : RunResult :=
  let bodyStruct : DeleteRequest := ⟨a.rmShortcodeArg⟩
  let r := rmFinish a.failNoexistArg (doRequest decodeDeleteResponse fl file
    "POST" DeleteEndpoint bodyStruct.marshal respStatus respRaw)
  ⟨r.stdout, dbgIf fl ("rm: " ++ a.rmShortcodeArg) ++ r.stderr, r.exit⟩

/-- `json.MarshalIndent` of a `MetaResponse` for `meta --json` output,
abstracted to the compact rendering (the two-space indentation is pure
formatting that no property observes). -/
def metaJsonText (m : MetaResponse) : String :=
  Jval.render (Jval.obj
    [("full_url", Jval.str m.FullUrl),
     ("meta", Jval.obj
       ([("owner", Jval.str m.Meta.Owner), ("time", Jval.str m.Meta.Time)]
         ++ (if m.Meta.UserMeta = "" then []
             else [("user_meta", Jval.str m.Meta.UserMeta)])))])

/-- Tail of `meta` from pare.go: 404 prints "noexist" to stdout and exits
1; any other non-200 status is fatal; on 200 print either the JSON dump or
the human-readable lines ("Code:" upper-cased, then full URL, owner,
creation time, and the user metadata line only when it is non-empty).
`fmtTime` abstracts `Time.Format(time.UnixDate)` of the Go `time`
package. -/
def metaFinish (fmtTime : String → String) (a : MetaCmdArgs)
    (o : DoOutcome MetaResponse) : RunResult :=
  match o with
  | DoOutcome.fatal msg dbg => ⟨[], dbg ++ [msg], 1⟩
  | DoOutcome.errStatus status _ dbg =>
      if status = 404 then ⟨["noexist"], dbg, 1⟩
      else ⟨[], dbg ++ [unexpectedCodeMsg status], 1⟩
  | DoOutcome.success resp _ dbg =>
      if a.metaJsonOut then ⟨[metaJsonText resp], dbg, 0⟩
      else
        ⟨["Code: " ++ goToUpper a.metaCodeArg,
          "Full URL: " ++ resp.FullUrl,
          "Owner: " ++ resp.Meta.Owner,
          "Created at: " ++ fmtTime resp.Meta.Time]
          ++ (if resp.Meta.UserMeta != ""
              then ["User-defined metadata: " ++ resp.Meta.UserMeta] else []),
         dbg, 0⟩

/-- `meta` from pare.go (including `main`'s dispatch debug line): GET
`/api/meta/<code>` with an empty-object body. -/
def runMeta (fmtTime : String → String) (fl : Flags) (a : MetaCmdArgs)
    (file : ConfigFile) (respStatus : Nat) (respRaw : RawBody) : RunResult :=
  let r := metaFinish fmtTime a (doRequest decodeMetaResponse fl file "GET"
    (MetaEndpoint ++ a.metaCodeArg) Empty.marshal respStatus respRaw)
  ⟨r.stdout, dbgIf fl ("meta: " ++ a.metaCodeArg) ++ r.stderr, r.exit⟩

-- Claims

/-- C3: with config file `{"APIKey":"k1","Server":"https://s.example"}` and
command `pare shorten http://a.com`, the client issues a POST to
`https://s.example/api/shorten` with body `{"url":"http://a.com"}` and
header `X-API-Key: k1`; on a 200 reply `{"short_url":"https://s.example/abc"}`
it writes `https://s.example/abc` to stdout and exits 0. -/
theorem c3_end_to_end :
    runShorten ⟨false, none, ""⟩ ⟨"http://a.com", "", ""⟩
        (ConfigFile.parsed ⟨"k1", "https://s.example"⟩) 200
        (some [("short_url", Jval.str "https://s.example/abc")])
      = ⟨["https://s.example/abc"], [], 0⟩
    ∧ doRequest decodeShortenResponse ⟨false, none, ""⟩
        (ConfigFile.parsed ⟨"k1", "https://s.example"⟩) "POST" ShortenEndpoint
        (ShortenRequest.marshal ⟨"http://a.com", "", ""⟩) 200
        (some [("short_url", Jval.str "https://s.example/abc")])
      = DoOutcome.success ⟨"https://s.example/abc"⟩
          ⟨"POST", "https://s.example/api/shorten",
           [("Accept", ["application/json"]),
            ("Content-Type", ["application/json"]),
            ("X-API-Key", ["k1"]),
            ("User-Agent", ["Pare (Go net/http)"])],
           "\x7b\"url\":\"http://a.com\"\x7d", true⟩ [] :=
  ⟨by decide, by decide⟩

/-- C4: in the serialized shorten body, an empty `code` flag leaves the
`code` field out of the JSON object entirely (not null, not empty), and a
non-empty one puts it there with that exact value; likewise for `meta`. -/
theorem c4_shorten_omitempty (u c m : String) :
    (c = "" → lookupField (ShortenRequest.marshal ⟨u, c, m⟩) "code" = none)
    ∧ (c ≠ "" → lookupField (ShortenRequest.marshal ⟨u, c, m⟩) "code"
        = some (Jval.str c))
    ∧ (m = "" → lookupField (ShortenRequest.marshal ⟨u, c, m⟩) "meta" = none)
    ∧ (m ≠ "" → lookupField (ShortenRequest.marshal ⟨u, c, m⟩) "meta"
        = some (Jval.str m)) := by
  unfold ShortenRequest.marshal lookupField
  refine ⟨fun hc => ?_, fun hc => ?_, fun hm => ?_, fun hm => ?_⟩ <;>
    by_cases hc2 : c = "" <;> by_cases hm2 : m = "" <;>
      simp_all [List.find?]

/-- Witness for C4 at `code=""`/`code=foo`, `meta=""`/`meta=bar`. -/
theorem c4_witness :
    lookupField (ShortenRequest.marshal ⟨"http://x", "", ""⟩) "code" = none
    ∧ lookupField (ShortenRequest.marshal ⟨"http://x", "foo", "bar"⟩) "code"
        = some (Jval.str "foo")
    ∧ lookupField (ShortenRequest.marshal ⟨"http://x", "", ""⟩) "meta" = none
    ∧ lookupField (ShortenRequest.marshal ⟨"http://x", "foo", "bar"⟩) "meta"
        = some (Jval.str "bar") :=
  ⟨(c4_shorten_omitempty "http://x" "" "").1 rfl,
   (c4_shorten_omitempty "http://x" "foo" "bar").2.1 (by decide),
   (c4_shorten_omitempty "http://x" "" "").2.2.1 rfl,
   (c4_shorten_omitempty "http://x" "foo" "bar").2.2.2 (by decide)⟩

/-- C8 counterexample: round-tripping
`ShortenRequest{url:"http://x", shortcode:"", meta:""}` through
serialization does NOT yield absent optional fields: the parsed-back
struct's fields are Go strings, and both come back as exactly the empty
string (absence is not a representable state of the struct). -/
theorem c8_roundtrip_counterexample :
    (decodeShortenRequest (ShortenRequest.marshal ⟨"http://x", "", ""⟩)).map
        ShortenRequest.Shortcode = some ""
    ∧ (decodeShortenRequest (ShortenRequest.marshal ⟨"http://x", "", ""⟩)).map
        ShortenRequest.Meta = some "" :=
  ⟨rfl, rfl⟩

/-- C8 (amended): serializing
`ShortenRequest{url:"http://x", shortcode:"", meta:""}` omits both optional
fields from the JSON entirely, and parsing that JSON back yields the
request with both optional fields equal to the empty string — the struct's
encoding of absence, not a distinct absent state. -/
theorem c8_roundtrip :
    ShortenRequest.marshal ⟨"http://x", "", ""⟩ = [("url", Jval.str "http://x")]
    ∧ lookupField (ShortenRequest.marshal ⟨"http://x", "", ""⟩) "code" = none
    ∧ lookupField (ShortenRequest.marshal ⟨"http://x", "", ""⟩) "meta" = none
    ∧ decodeShortenRequest (ShortenRequest.marshal ⟨"http://x", "", ""⟩)
        = some ⟨"http://x", "", ""⟩ :=
  ⟨rfl, rfl, rfl, rfl⟩

/-- C2 counterexample: `--server` given with a value whose rendering is
empty (kingpin's URL flag parses `--server=` to a non-nil empty URL) still
overrides a non-empty file value, so "a CLI flag overrides the file value
only when it is provided and non-empty" fails for `--server`: the file's
`https://file` is replaced by the empty string. -/
theorem c2_precedence_counterexample :
    resolvedConfig ⟨false, some "", ""⟩ (ConfigFile.parsed ⟨"", "https://file"⟩)
      = some ⟨"", ""⟩
    ∧ ("https://file" : String) ≠ "" :=
  ⟨rfl, by decide⟩

/-- C2 (amended): the effective config layers CLI flags over file values
over empty defaults; `--apikey` overrides only when non-empty, while
`--server` overrides whenever it is provided, whatever its rendered value. -/
theorem c2_precedence (fl : Flags) (c : Config) :
    (fl.serverFlag = none →
      (resolvedConfig fl (ConfigFile.parsed c)).map Config.Server = some c.Server)
    ∧ (∀ s, fl.serverFlag = some s →
      (resolvedConfig fl (ConfigFile.parsed c)).map Config.Server = some s)
    ∧ (fl.apiKeyFlag = "" →
      (resolvedConfig fl (ConfigFile.parsed c)).map Config.APIKey = some c.APIKey)
    ∧ (fl.apiKeyFlag ≠ "" →
      (resolvedConfig fl (ConfigFile.parsed c)).map Config.APIKey
        = some fl.apiKeyFlag)
    ∧ (fl.serverFlag = none →
      (resolvedConfig fl ConfigFile.missing).map Config.Server = some "")
    ∧ (fl.apiKeyFlag = "" →
      (resolvedConfig fl ConfigFile.missing).map Config.APIKey = some "") := by
  obtain ⟨b, sf, kf⟩ := fl
  refine ⟨fun hs => ?_, fun s hs => ?_, fun hk => ?_, fun hk => ?_,
    fun hs => ?_, fun hk => ?_⟩ <;>
    simp_all [resolvedConfig, serverDetails]

/-- Witness for C2 at a file config `{APIKey:"fk", Server:"fs"}` with both
flags given non-empty, with both absent, and with the missing file. -/
theorem c2_witness :
    (resolvedConfig ⟨false, some "https://cli", "ck"⟩
        (ConfigFile.parsed ⟨"fk", "fs"⟩)).map Config.Server = some "https://cli"
    ∧ (resolvedConfig ⟨false, some "https://cli", "ck"⟩
        (ConfigFile.parsed ⟨"fk", "fs"⟩)).map Config.APIKey = some "ck"
    ∧ (resolvedConfig ⟨false, none, ""⟩
        (ConfigFile.parsed ⟨"fk", "fs"⟩)).map Config.Server = some "fs"
    ∧ (resolvedConfig ⟨false, none, ""⟩
        (ConfigFile.parsed ⟨"fk", "fs"⟩)).map Config.APIKey = some "fk"
    ∧ (resolvedConfig ⟨false, none, ""⟩ ConfigFile.missing).map Config.Server
        = some ""
    ∧ (resolvedConfig ⟨false, none, ""⟩ ConfigFile.missing).map Config.APIKey
        = some "" :=
  ⟨(c2_precedence ⟨false, some "https://cli", "ck"⟩ ⟨"fk", "fs"⟩).2.1
      "https://cli" rfl,
   (c2_precedence ⟨false, some "https://cli", "ck"⟩ ⟨"fk", "fs"⟩).2.2.2.1
      (by decide),
   (c2_precedence ⟨false, none, ""⟩ ⟨"fk", "fs"⟩).1 rfl,
   (c2_precedence ⟨false, none, ""⟩ ⟨"fk", "fs"⟩).2.2.1 rfl,
   (c2_precedence ⟨false, none, ""⟩ ⟨"fk", "fs"⟩).2.2.2.2.1 rfl,
   (c2_precedence ⟨false, none, ""⟩ ⟨"fk", "fs"⟩).2.2.2.2.2 rfl⟩

/-- C1 counterexample: on a 409 reply to shorten, "conflict" is written by
`errPrintf` to stderr, not stdout — at this concrete invocation stdout is
empty while stderr holds the word, so "stdout containing conflict" fails. -/
theorem c1_conflict_counterexample :
    (runShorten ⟨false, none, ""⟩ ⟨"http://a.com", "", ""⟩
        ConfigFile.missing 409 none).stdout = []
    ∧ "conflict" ∈ (runShorten ⟨false, none, ""⟩ ⟨"http://a.com", "", ""⟩
        ConfigFile.missing 409 none).stderr :=
  ⟨rfl, by decide⟩

/-- C1 (amended): for every shorten invocation answered with status 409
(whenever the config file itself did not already abort the run), the
program prints nothing to stdout, prints "conflict" on stderr, exits with
the non-zero code -1, and never deserializes the response body: the
outcome is the same for every body, valid JSON or not. -/
theorem c1_shorten_conflict (fl : Flags) (a : ShortenCmdArgs)
    (file : ConfigFile) (h : file ≠ ConfigFile.invalid) (raw : RawBody) :
    (runShorten fl a file 409 raw).stdout = []
    ∧ "conflict" ∈ (runShorten fl a file 409 raw).stderr
    ∧ (runShorten fl a file 409 raw).exit = -1
    ∧ runShorten fl a file 409 raw = runShorten fl a file 409 none := by
  cases file with
  | invalid => exact absurd rfl h
  | missing =>
      refine ⟨?_, ?_, ?_, ?_⟩ <;>
        simp [runShorten, doRequest, serverDetails, shortenFinish]
  | parsed c =>
      refine ⟨?_, ?_, ?_, ?_⟩ <;>
        simp [runShorten, doRequest, serverDetails, shortenFinish]

/-- Witness for C1 at a concrete 409 invocation with an unparseable body. -/
theorem c1_witness :
    (ConfigFile.parsed ⟨"k", "https://s"⟩ ≠ ConfigFile.invalid)
    ∧ (runShorten ⟨true, none, ""⟩ ⟨"http://a.com", "", ""⟩
        (ConfigFile.parsed ⟨"k", "https://s"⟩) 409 none).stdout = []
    ∧ "conflict" ∈ (runShorten ⟨true, none, ""⟩ ⟨"http://a.com", "", ""⟩
        (ConfigFile.parsed ⟨"k", "https://s"⟩) 409 none).stderr
    ∧ (runShorten ⟨true, none, ""⟩ ⟨"http://a.com", "", ""⟩
        (ConfigFile.parsed ⟨"k", "https://s"⟩) 409 none).exit = -1 :=
  ⟨by decide,
   (c1_shorten_conflict ⟨true, none, ""⟩ ⟨"http://a.com", "", ""⟩
      (ConfigFile.parsed ⟨"k", "https://s"⟩) (by decide) none).1,
   (c1_shorten_conflict ⟨true, none, ""⟩ ⟨"http://a.com", "", ""⟩
      (ConfigFile.parsed ⟨"k", "https://s"⟩) (by decide) none).2.1,
   (c1_shorten_conflict ⟨true, none, ""⟩ ⟨"http://a.com", "", ""⟩
      (ConfigFile.parsed ⟨"k", "https://s"⟩) (by decide) none).2.2.1⟩

/-- C5: after a 200 reply to delete, the exit code is decided by the
response's status string and the fail-no-exist flag: "noexist" with the
flag unset exits 0, "noexist" with the flag set exits 1, "deleted" exits 0
for either flag value; the `code/status` pair is printed either way. -/
theorem c5_rm_exit (fl : Flags) (argCode : String) (flag : Bool)
    (file : ConfigFile) (h : file ≠ ConfigFile.invalid)
    (respCode status : String) :
    (runRm fl ⟨argCode, flag⟩ file 200
        (some [("code", Jval.str respCode), ("status", Jval.str status)])).stdout
      = [respCode ++ "/" ++ status]
    ∧ (status = "noexist" → flag = false →
        (runRm fl ⟨argCode, flag⟩ file 200
          (some [("code", Jval.str respCode), ("status", Jval.str status)])).exit
          = 0)
    ∧ (status = "noexist" → flag = true →
        (runRm fl ⟨argCode, flag⟩ file 200
          (some [("code", Jval.str respCode), ("status", Jval.str status)])).exit
          = 1)
    ∧ (status = "deleted" →
        (runRm fl ⟨argCode, flag⟩ file 200
          (some [("code", Jval.str respCode), ("status", Jval.str status)])).exit
          = 0) := by
  cases file with
  | invalid => exact absurd rfl h
  | missing =>
      refine ⟨?_, fun h1 h2 => ?_, fun h1 h2 => ?_, fun h1 => ?_⟩ <;>
        subst_vars <;>
        simp [runRm, doRequest, serverDetails, rmFinish, decodeDeleteResponse,
          getStrField, lookupField, List.find?]
  | parsed c =>
      refine ⟨?_, fun h1 h2 => ?_, fun h1 h2 => ?_, fun h1 => ?_⟩ <;>
        subst_vars <;>
        simp [runRm, doRequest, serverDetails, rmFinish, decodeDeleteResponse,
          getStrField, lookupField, List.find?]

/-- Witness for C5 at the three concrete flag/status combinations. -/
theorem c5_witness :
    (runRm ⟨false, none, ""⟩ ⟨"c", false⟩ ConfigFile.missing 200
        (some [("code", Jval.str "c"), ("status", Jval.str "noexist")])).exit = 0
    ∧ (runRm ⟨false, none, ""⟩ ⟨"c", true⟩ ConfigFile.missing 200
        (some [("code", Jval.str "c"), ("status", Jval.str "noexist")])).exit = 1
    ∧ (runRm ⟨false, none, ""⟩ ⟨"c", true⟩ ConfigFile.missing 200
        (some [("code", Jval.str "c"), ("status", Jval.str "deleted")])).exit = 0 :=
  ⟨(c5_rm_exit ⟨false, none, ""⟩ "c" false ConfigFile.missing (by decide)
      "c" "noexist").2.1 rfl rfl,
   (c5_rm_exit ⟨false, none, ""⟩ "c" true ConfigFile.missing (by decide)
      "c" "noexist").2.2.1 rfl rfl,
   (c5_rm_exit ⟨false, none, ""⟩ "c" true ConfigFile.missing (by decide)
      "c" "deleted").2.2.2 rfl⟩

/-- C6: a 404 reply to meta prints exactly the line "noexist" to stdout
and exits with code exactly 1, for every flag set, code argument, time
formatter and response body. -/
theorem c6_meta_404 (fmtTime : String → String) (fl : Flags)
    (a : MetaCmdArgs) (file : ConfigFile) (h : file ≠ ConfigFile.invalid)
    (raw : RawBody) :
    (runMeta fmtTime fl a file 404 raw).stdout = ["noexist"]
    ∧ (runMeta fmtTime fl a file 404 raw).exit = 1 := by
  cases file with
  | invalid => exact absurd rfl h
  | missing =>
      constructor <;> simp [runMeta, doRequest, serverDetails, metaFinish]
  | parsed c =>
      constructor <;> simp [runMeta, doRequest, serverDetails, metaFinish]

/-- Witness for C6 at a concrete 404 meta invocation. -/
theorem c6_witness :
    (runMeta id ⟨false, none, ""⟩ ⟨"ab", false⟩ ConfigFile.missing 404
        none).stdout = ["noexist"]
    ∧ (runMeta id ⟨false, none, ""⟩ ⟨"ab", false⟩ ConfigFile.missing 404
        none).exit = 1 :=
  ⟨(c6_meta_404 id ⟨false, none, ""⟩ ⟨"ab", false⟩ ConfigFile.missing
      (by decide) none).1,
   (c6_meta_404 id ⟨false, none, ""⟩ ⟨"ab", false⟩ ConfigFile.missing
      (by decide) none).2⟩

/-- C7: a missing `~/.pare.json` is not an error — the run proceeds and
resolves exactly the config an empty file contribution would give, with no
output when debug is off; a file that exists but does not parse is fatal:
`serverDetails` aborts with the parse-error diagnostic, and each of the
three commands then exits non-zero with that diagnostic on stderr. -/
theorem c7_config_file :
    (∀ fl : Flags, resolvedConfig fl ConfigFile.missing
        = resolvedConfig fl (ConfigFile.parsed ⟨"", ""⟩))
    ∧ (∀ sf kf, resolvedDbg ⟨false, sf, kf⟩ ConfigFile.missing = some [])
    ∧ (∀ fl : Flags, serverDetails fl ConfigFile.invalid
        = Except.error "error parsing ~/.pare.json")
    ∧ (∀ (fl : Flags) (a : ShortenCmdArgs) (st : Nat) (raw : RawBody),
        (runShorten fl a ConfigFile.invalid st raw).exit = 1
        ∧ "error parsing ~/.pare.json"
            ∈ (runShorten fl a ConfigFile.invalid st raw).stderr)
    ∧ (∀ (fl : Flags) (a : RmCmdArgs) (st : Nat) (raw : RawBody),
        (runRm fl a ConfigFile.invalid st raw).exit = 1
        ∧ "error parsing ~/.pare.json"
            ∈ (runRm fl a ConfigFile.invalid st raw).stderr)
    ∧ (∀ (fmtTime : String → String) (fl : Flags) (a : MetaCmdArgs)
          (st : Nat) (raw : RawBody),
        (runMeta fmtTime fl a ConfigFile.invalid st raw).exit = 1
        ∧ "error parsing ~/.pare.json"
            ∈ (runMeta fmtTime fl a ConfigFile.invalid st raw).stderr) := by
  refine ⟨fun fl => rfl, fun sf kf => rfl, fun fl => rfl, ?_, ?_, ?_⟩
  · intro fl a st raw
    constructor <;>
      simp [runShorten, doRequest, serverDetails, shortenFinish]
  · intro fl a st raw
    constructor <;>
      simp [runRm, doRequest, serverDetails, rmFinish]
  · intro fmtTime fl a st raw
    constructor <;>
      simp [runMeta, doRequest, serverDetails, metaFinish]

/-- C10: in human-readable mode, a 200 meta reply prints the requested
code upper-cased on the "Code:" line, then the full URL, owner and
creation time, and prints the "User-defined metadata:" line exactly when
the response's user metadata is non-empty; the run exits 0. -/
theorem c10_meta_human (fmtTime : String → String) (fl : Flags)
    (argCode : String) (file : ConfigFile) (h : file ≠ ConfigFile.invalid)
    (o : Jobj) (m : MetaResponse) (hdec : decodeMetaResponse o = some m) :
    (runMeta fmtTime fl ⟨argCode, false⟩ file 200 (some o)).stdout
      = ["Code: " ++ goToUpper argCode,
         "Full URL: " ++ m.FullUrl,
         "Owner: " ++ m.Meta.Owner,
         "Created at: " ++ fmtTime m.Meta.Time]
        ++ (if m.Meta.UserMeta = "" then []
            else ["User-defined metadata: " ++ m.Meta.UserMeta])
    ∧ (runMeta fmtTime fl ⟨argCode, false⟩ file 200 (some o)).exit = 0 := by
  cases file with
  | invalid => exact absurd rfl h
  | missing =>
      constructor <;>
        simp [runMeta, doRequest, serverDetails, metaFinish, hdec]
  | parsed c =>
      constructor <;>
        simp [runMeta, doRequest, serverDetails, metaFinish, hdec]

/-- Witness for C10: a concrete 200 meta reply with empty user metadata
(no metadata line) and one with `note` (metadata line present). -/
theorem c10_witness :
    (runMeta id ⟨false, none, ""⟩ ⟨"ab", false⟩ ConfigFile.missing 200
        (some [("full_url", Jval.str "http://f"),
               ("meta", Jval.obj [("owner", Jval.str "me"),
                                  ("time", Jval.str "t0"),
                                  ("user_meta", Jval.str "")])])).stdout
      = ["Code: AB", "Full URL: http://f", "Owner: me", "Created at: t0"]
    ∧ (runMeta id ⟨false, none, ""⟩ ⟨"ab", false⟩ ConfigFile.missing 200
        (some [("full_url", Jval.str "http://f"),
               ("meta", Jval.obj [("owner", Jval.str "me"),
                                  ("time", Jval.str "t0"),
                                  ("user_meta", Jval.str "note")])])).stdout
      = ["Code: AB", "Full URL: http://f", "Owner: me", "Created at: t0",
         "User-defined metadata: note"] :=
  ⟨(c10_meta_human id ⟨false, none, ""⟩ "ab" ConfigFile.missing (by decide)
      [("full_url", Jval.str "http://f"),
       ("meta", Jval.obj [("owner", Jval.str "me"), ("time", Jval.str "t0"),
                          ("user_meta", Jval.str "")])]
      ⟨"http://f", "me", "t0", ""⟩ rfl).1,
   (c10_meta_human id ⟨false, none, ""⟩ "ab" ConfigFile.missing (by decide)
      [("full_url", Jval.str "http://f"),
       ("meta", Jval.obj [("owner", Jval.str "me"), ("time", Jval.str "t0"),
                          ("user_meta", Jval.str "note")])]
      ⟨"http://f", "me", "t0", "note"⟩ rfl).1⟩

/-- Forget the debug lines a `doRequest` outcome carries. -/
def DoOutcome.stripDbg {α : Type} : DoOutcome α → DoOutcome α
  | DoOutcome.fatal msg _ => DoOutcome.fatal msg []
  | DoOutcome.errStatus s r _ => DoOutcome.errStatus s r []
  | DoOutcome.success a r _ => DoOutcome.success a r []

/-- The `--debug` flag changes at most the debug lines of `doRequest`'s
outcome: status, decoded response and constructed request are the same. -/
theorem doRequest_stripDbg {α : Type} (decode : Jobj → Option α)
    (b b' : Bool) (sf : Option String) (kf : String) (file : ConfigFile)
    (method endpoint : String) (body : Jobj) (st : Nat) (raw : RawBody) :
    (doRequest decode ⟨b, sf, kf⟩ file method endpoint body st raw).stripDbg
      = (doRequest decode ⟨b', sf, kf⟩ file method endpoint body st raw).stripDbg := by
  cases file with
  | invalid => rfl
  | missing =>
      by_cases hst : st = 200
      · cases raw with
        | none => simp [doRequest, serverDetails, hst, DoOutcome.stripDbg]
        | some o =>
            cases hdec : decode o <;>
              simp [doRequest, serverDetails, hst, hdec, DoOutcome.stripDbg]
      · simp [doRequest, serverDetails, hst, DoOutcome.stripDbg]
  | parsed c =>
      by_cases hst : st = 200
      · cases raw with
        | none => simp [doRequest, serverDetails, hst, DoOutcome.stripDbg]
        | some o =>
            cases hdec : decode o <;>
              simp [doRequest, serverDetails, hst, hdec, DoOutcome.stripDbg]
      · simp [doRequest, serverDetails, hst, DoOutcome.stripDbg]

/-- Outcomes equal up to debug lines give `shorten` the same stdout and
exit code. -/
theorem shortenFinish_of_stripDbg (o o' : DoOutcome ShortenResponse)
    (h : o.stripDbg = o'.stripDbg) :
    (shortenFinish o).stdout = (shortenFinish o').stdout
    ∧ (shortenFinish o).exit = (shortenFinish o').exit := by
  cases o <;> cases o' <;>
    simp_all [DoOutcome.stripDbg, shortenFinish] <;>
    (split <;> simp_all)

/-- Outcomes equal up to debug lines give `rm` the same stdout and exit
code. -/
theorem rmFinish_of_stripDbg (flag : Bool) (o o' : DoOutcome DeleteResponse)
    (h : o.stripDbg = o'.stripDbg) :
    (rmFinish flag o).stdout = (rmFinish flag o').stdout
    ∧ (rmFinish flag o).exit = (rmFinish flag o').exit := by
  cases o <;> cases o' <;>
    simp_all [DoOutcome.stripDbg, rmFinish]

/-- Outcomes equal up to debug lines give `meta` the same stdout and exit
code. -/
theorem metaFinish_of_stripDbg (fmtTime : String → String) (a : MetaCmdArgs)
    (o o' : DoOutcome MetaResponse) (h : o.stripDbg = o'.stripDbg) :
    (metaFinish fmtTime a o).stdout = (metaFinish fmtTime a o').stdout
    ∧ (metaFinish fmtTime a o).exit = (metaFinish fmtTime a o').exit := by
  cases o <;> cases o' <;>
    simp_all [DoOutcome.stripDbg, metaFinish] <;>
    split <;> simp_all

/-- C9: two runs of any of the three operations that differ only in the
`--debug` flag (same other flags, same config file, same arguments, same
server answer) produce identical stdout and identical exit codes — debug
trace lines reach only the diagnostic stream. -/
theorem c9_debug_invariant (b b' : Bool) (sf : Option String) (kf : String)
    (file : ConfigFile) (st : Nat) (raw : RawBody) :
    (∀ a : ShortenCmdArgs,
      (runShorten ⟨b, sf, kf⟩ a file st raw).stdout
          = (runShorten ⟨b', sf, kf⟩ a file st raw).stdout
      ∧ (runShorten ⟨b, sf, kf⟩ a file st raw).exit
          = (runShorten ⟨b', sf, kf⟩ a file st raw).exit)
    ∧ (∀ a : RmCmdArgs,
      (runRm ⟨b, sf, kf⟩ a file st raw).stdout
          = (runRm ⟨b', sf, kf⟩ a file st raw).stdout
      ∧ (runRm ⟨b, sf, kf⟩ a file st raw).exit
          = (runRm ⟨b', sf, kf⟩ a file st raw).exit)
    ∧ (∀ (fmtTime : String → String) (a : MetaCmdArgs),
      (runMeta fmtTime ⟨b, sf, kf⟩ a file st raw).stdout
          = (runMeta fmtTime ⟨b', sf, kf⟩ a file st raw).stdout
      ∧ (runMeta fmtTime ⟨b, sf, kf⟩ a file st raw).exit
          = (runMeta fmtTime ⟨b', sf, kf⟩ a file st raw).exit) := by
  refine ⟨fun a => ?_, fun a => ?_, fun fmtTime a => ?_⟩
  · have h := shortenFinish_of_stripDbg _ _
      (doRequest_stripDbg decodeShortenResponse b b' sf kf file "POST"
        ShortenEndpoint
        (ShortenRequest.marshal ⟨a.shortenUrlArg, a.shortcodeArg, a.metaArg⟩)
        st raw)
    simpa [runShorten] using h
  · have h := rmFinish_of_stripDbg a.failNoexistArg _ _
      (doRequest_stripDbg decodeDeleteResponse b b' sf kf file "POST"
        DeleteEndpoint (DeleteRequest.marshal ⟨a.rmShortcodeArg⟩) st raw)
    simpa [runRm] using h
  · have h := metaFinish_of_stripDbg fmtTime a _ _
      (doRequest_stripDbg decodeMetaResponse b b' sf kf file "GET"
        (MetaEndpoint ++ a.metaCodeArg) Empty.marshal st raw)
    simpa [runMeta] using h

end Pare
